import Mathlib

/-!
Verification of the aegis-stack scaffolding tool and the health aggregation
tree of its generated application, as a shallow embedding in Lean.

Sources embedded:
* app/services/system/health.py (the generated application's health
  aggregation: get_system_status, _run_health_check,
  _get_cached_system_metrics, _check_memory, _check_disk_space,
  _check_cpu_usage);
* aegis/core/template_generator.py (TemplateGenerator);
* aegis/core/dependency_resolver.py is absent from the sources; the
  resolver is modelled from the spec where needed.

Python floats are modelled as rationals; wall-clock instants as rationals;
Python dictionaries as association lists in insertion order.  `round(x, n)`
is modelled as round-half-to-even at n decimal digits, and an f-string
percentage display as rendering the value rounded to one digit.
-/

namespace Aegis

/-- A metadata value: Python dict values used in health metadata are
strings, numbers or booleans. -/
inductive MetaVal where
  | s (v : String)
  | n (v : ℚ)
  | b (v : Bool)
deriving DecidableEq

/-- ComponentStatus from app/services/system/models.py, as used by
health.py: name, healthy flag, message, optional response time (ms),
metadata mapping and a mapping of nested sub-components. -/
inductive ComponentStatus where
  | mk (name : String) (healthy : Bool) (message : String)
       (response_time_ms : Option ℚ)
       (metadata : List (String × MetaVal))
       (sub_components : List (String × ComponentStatus))

/-- Field accessor: name. -/
def ComponentStatus.name : ComponentStatus → String
  | .mk n _ _ _ _ _ => n

/-- Field accessor: healthy. -/
def ComponentStatus.healthy : ComponentStatus → Bool
  | .mk _ h _ _ _ _ => h

/-- Field accessor: message. -/
def ComponentStatus.message : ComponentStatus → String
  | .mk _ _ m _ _ _ => m

/-- Field accessor: response_time_ms. -/
def ComponentStatus.response_time_ms : ComponentStatus → Option ℚ
  | .mk _ _ _ r _ _ => r

/-- Field accessor: metadata. -/
def ComponentStatus.metadata : ComponentStatus → List (String × MetaVal)
  | .mk _ _ _ _ md _ => md

/-- Field accessor: sub_components. -/
def ComponentStatus.sub_components :
    ComponentStatus → List (String × ComponentStatus)
  | .mk _ _ _ _ _ sc => sc

/-- The runner's post-hoc assignment `result.response_time_ms = t`. -/
def ComponentStatus.setResponseTime (c : ComponentStatus) (t : ℚ) :
    ComponentStatus :=
  match c with
  | .mk n h m _ md sc => .mk n h m (some t) md sc

/-- Rebuild a status with new sub_components (the dict-literal re-creation
performed by get_system_status for the backend component). -/
def ComponentStatus.withSubComponents (c : ComponentStatus)
    (sc : List (String × ComponentStatus)) : ComponentStatus :=
  match c with
  | .mk n h m r md _ => .mk n h m r md sc

/-- SystemStatus from app/services/system/models.py as constructed by
get_system_status. -/
structure SystemStatus where
  components : List (String × ComponentStatus)
  overall_healthy : Bool
  timestamp : ℚ
  system_info : List (String × MetaVal)

/-- Python dict lookup on an association list (first matching key). -/
def alist_get {β : Type} (k : String) (l : List (String × β)) : Option β :=
  (l.find? (fun p => p.1 = k)).map (fun p => p.2)

mutual

/-- All nodes of a status tree: the node itself plus, recursively, every
node of every sub-component at every depth.  This is the flattening the
spec describes for overall health. -/
def ComponentStatus.allNodes : ComponentStatus → List ComponentStatus
  | .mk n h m r md sc => .mk n h m r md sc :: allNodesList sc

/-- All nodes of a list of named status trees. -/
def allNodesList : List (String × ComponentStatus) → List ComponentStatus
  | [] => []
  | (_, c) :: rest => c.allNodes ++ allNodesList rest

end

/-- Deep health of a status tree: the node and every descendant at every
depth are healthy. -/
def ComponentStatus.deepHealthy (c : ComponentStatus) : Bool :=
  c.allNodes.all (fun s => s.healthy)

/-- Deep health across a mapping of status trees. -/
def deepHealthyList (l : List (String × ComponentStatus)) : Bool :=
  (allNodesList l).all (fun s => s.healthy)

/-! ## The health-check runner (health.py) -/

/-- What awaiting a registered probe can yield: a ComponentStatus, a
duck-typed truthiness value (the `else` branch of _run_health_check), or a
raised exception carrying an error text. -/
inductive ProbeOutcome where
  | ok (status : ComponentStatus)
  | okBool (b : Bool)
  | err (msg : String)

/-- The runner _run_health_check: run one probe, timing it.  The probe's behaviour for
this poll is given by `outcome`, and the measured wall-clock elapsed time
(end minus start, in ms) by `elapsed`.  A ComponentStatus result gets its
response_time_ms set post-hoc; a truthy/falsy result is wrapped; a raised
exception is caught and converted to an unhealthy status carrying the error
text, with the elapsed time still recorded.  The function is total: no
exception propagates to the caller. -/
def run_health_check (name : String) (outcome : ProbeOutcome) (elapsed : ℚ) :
    ComponentStatus :=
  match outcome with
  | .ok result => result.setResponseTime elapsed
  | .okBool b =>
      .mk name b (if b then "OK" else "Failed") (some elapsed) [] []
  | .err e =>
      .mk name false ("Error: " ++ e) (some elapsed) [] []

/-- The per-metric cache `_system_metrics_cache`: name to cached status and
the poll time at which it was stored. -/
abbrev CacheT : Type := List (String × (ComponentStatus × ℚ))

/-- Python dict assignment `_system_metrics_cache[name] = v`: replace in
place if present, else append. -/
def cacheSet (name : String) (v : ComponentStatus × ℚ) (c : CacheT) :
    CacheT :=
  if (c.find? (fun p => p.1 = name)).isSome then
    c.map (fun p => if p.1 = name then (p.1, v) else p)
  else
    c ++ [(name, v)]

/-- The fixed dict of system metric checks, in source order. -/
def metricNames : List String := ["memory", "disk", "cpu"]

/-- Cache decision for one metric: true when a cached entry exists whose
age (current poll time minus cached time, seconds) is strictly below the
configured cache duration. -/
def metricCacheHit (cache : CacheT) (duration current_time : ℚ)
    (name : String) : Bool :=
  match alist_get name cache with
  | some (_, cached_time) => decide (current_time - cached_time < duration)
  | none => false

/-- The status produced for one metric by _get_cached_system_metrics: the
cached status verbatim on a hit, otherwise the freshly run check (through
_run_health_check, via _run_health_check_with_cache).  `fresh` gives each
metric probe's behaviour and elapsed time for this poll. -/
def metricResult (cache : CacheT) (duration current_time : ℚ)
    (fresh : String → ProbeOutcome × ℚ) (name : String) : ComponentStatus :=
  if metricCacheHit cache duration current_time name then
    match alist_get name cache with
    | some (cached_result, _) => cached_result
    | none => .mk name false "" none [] []
  else
    run_health_check name (fresh name).1 (fresh name).2

/-- The function _get_cached_system_metrics: for each of memory, disk and cpu, reuse the
cached status when its age is under the cache duration, else run the check;
every fresh result is cached with the poll's current time.  All cache reads
happen against the cache as it stood at the start of the poll (the tasks
are only scheduled, not awaited, during the read loop); each miss then
writes its own entry.  Returns the metric statuses in source order together
with the updated cache. -/
def get_cached_system_metrics (cache : CacheT) (current_time duration : ℚ)
    (fresh : String → ProbeOutcome × ℚ) :
    List (String × ComponentStatus) × CacheT :=
  let results := metricNames.map
    (fun name => (name, metricResult cache duration current_time fresh name))
  let newCache := (metricNames.filter
      (fun name => !metricCacheHit cache duration current_time name)).foldl
    (fun c name =>
      cacheSet name (metricResult cache duration current_time fresh name,
        current_time) c)
    cache
  (results, newCache)

/-- The virtual backend node created when no probe named "backend" is
registered: healthy is the AND over the metric statuses, with the matching
message, and the metrics attached as sub_components. -/
def virtualBackend (metrics : List (String × ComponentStatus)) :
    ComponentStatus :=
  let backend_healthy := metrics.all (fun p => p.2.healthy)
  .mk "backend" backend_healthy
    (if backend_healthy then "System container metrics"
     else "System container has issues")
    none
    [("type", .s "system_container"), ("virtual", .b true)]
    metrics

/-- The backend-composition step of get_system_status: when a "backend"
entry exists among the component results it is re-created with the system
metrics as its sub_components (all other fields preserved); otherwise a
virtual backend entry is appended. -/
def backendCompose (rs metrics : List (String × ComponentStatus)) :
    List (String × ComponentStatus) :=
  match alist_get "backend" rs with
  | some b =>
      rs.map (fun p =>
        if p.1 = "backend" then (p.1, b.withSubComponents metrics) else p)
  | none => rs ++ [("backend", virtualBackend metrics)]

/-- The flattening get_system_status uses for overall health: the top-level
component results plus each one's direct sub_components — one level only. -/
def oneLevelStatuses (rs : List (String × ComponentStatus)) :
    List ComponentStatus :=
  rs.map (fun p => p.2) ++ rs.flatMap (fun p => p.2.sub_components.map Prod.snd)

/-- get_system_status.  `checks` is the probe registry (insertion order)
together with each probe's behaviour and elapsed time for this poll;
`cache`/`duration`/`fresh` drive the system-metrics step; `start_time` is
the poll timestamp; `system_info` stands for _get_system_info's result.
Returns the snapshot and the updated metrics cache. -/
def get_system_status (checks : List (String × (ProbeOutcome × ℚ)))
    (cache : CacheT) (duration : ℚ) (start_time : ℚ)
    (fresh : String → ProbeOutcome × ℚ)
    (system_info : List (String × MetaVal)) : SystemStatus × CacheT :=
  let component_results := checks.map
    (fun c => (c.1, run_health_check c.1 c.2.1 c.2.2))
  let mc := get_cached_system_metrics cache start_time duration fresh
  let results := backendCompose component_results mc.1
  let all_statuses := oneLevelStatuses results
  let overall_healthy := all_statuses.all (fun s => s.healthy)
  let aegis_healthy := all_statuses.all (fun s => s.healthy)
  let root : ComponentStatus :=
    .mk "aegis" aegis_healthy
      (if aegis_healthy then "Aegis Stack application"
       else "Aegis Stack has issues")
      none
      [("type", .s "application_root"), ("version", .s "1.0")]
      results
  (⟨[("aegis", root)], overall_healthy, start_time, system_info⟩, mc.2)

/-- The snapshot a full poll produces (first component of
get_system_status, dropping the updated cache). -/
def pollSnapshot (checks : List (String × (ProbeOutcome × ℚ)))
    (cache : CacheT) (duration start : ℚ)
    (fresh : String → ProbeOutcome × ℚ)
    (system_info : List (String × MetaVal)) : SystemStatus :=
  (get_system_status checks cache duration start fresh system_info).1

/-- The sub-components of the snapshot's root node (the per-component
results after backend composition). -/
def SystemStatus.rootSubs (s : SystemStatus) : List (String × ComponentStatus) :=
  match alist_get "aegis" s.components with
  | some root => root.sub_components
  | none => []

/-! ## System metric checks (health.py) -/

/-- Python round-half-to-even to an integer, the semantics of round(x). -/
def roundHalfEven (x : ℚ) : ℤ :=
  let f : ℤ := ⌊x⌋
  let r : ℚ := x - f
  if r < 1 / 2 then f
  else if 1 / 2 < r then f + 1
  else if f % 2 = 0 then f else f + 1

/-- Python round(x, d): round-half-to-even at d decimal digits. -/
def roundTo (d : ℕ) (x : ℚ) : ℚ :=
  (roundHalfEven (x * 10 ^ d) : ℚ) / 10 ^ d

/-- Rendering of a numeric value in an f-string; a percentage display
with :.1f shows the value rounded to one digit. -/
def fmtQ (x : ℚ) : String := toString x

/-- The check _check_memory on a sample: psutil gives the used percentage directly;
healthy iff the unrounded percentage is strictly below the threshold, with
the message showing the percentage rounded to one digit and the metadata
carrying the unrounded percentage plus gigabyte figures rounded to two. -/
def check_memory (memory_percent total available threshold : ℚ) :
    ComponentStatus :=
  let healthy := decide (memory_percent < threshold)
  .mk "memory" healthy
    ("Memory usage: " ++ fmtQ (roundTo 1 memory_percent) ++ "%")
    none
    [("percent_used", .n memory_percent),
     ("total_gb", .n (roundTo 2 (total / 1024 ^ 3))),
     ("available_gb", .n (roundTo 2 (available / 1024 ^ 3))),
     ("threshold_percent", .n threshold)]
    []

/-- The check _check_disk_space on a sample: the percentage is computed unrounded as
used / total * 100 and compared strictly against the threshold; display
rounding as for memory. -/
def check_disk_space (disk_used disk_total disk_free threshold : ℚ) :
    ComponentStatus :=
  let disk_percent := disk_used / disk_total * 100
  let healthy := decide (disk_percent < threshold)
  .mk "disk" healthy
    ("Disk usage: " ++ fmtQ (roundTo 1 disk_percent) ++ "%")
    none
    [("percent_used", .n disk_percent),
     ("total_gb", .n (roundTo 2 (disk_total / 1024 ^ 3))),
     ("free_gb", .n (roundTo 2 (disk_free / 1024 ^ 3))),
     ("threshold_percent", .n threshold)]
    []

/-- The check _check_cpu_usage on a sample: healthy iff the unrounded instant CPU
percentage is strictly below the threshold. -/
def check_cpu_usage (cpu_percent : ℚ) (cpu_count : ℕ) (threshold : ℚ) :
    ComponentStatus :=
  let healthy := decide (cpu_percent < threshold)
  .mk "cpu" healthy
    ("CPU usage: " ++ fmtQ (roundTo 1 cpu_percent) ++ "%")
    none
    [("percent_used", .n cpu_percent),
     ("cpu_count", .n (cpu_count : ℚ)),
     ("threshold_percent", .n threshold)]
    []

/-! ## Template generation (aegis/core/template_generator.py) -/

/-- ComponentSpec as read by the template generator and the resolver:
the registry fields consumed by the embedded code. -/
structure ComponentSpec where
  requires : List String
  recommends : List String
  docker_services : List String
  pyproject_deps : List String
  template_files : List String
deriving DecidableEq

/-- The component registry COMPONENTS: a dict from component name to its
spec, treated as externally supplied static data. -/
abbrev Registry : Type := List (String × ComponentSpec)

/-- list(dict.fromkeys(l)): insert keys in order, skipping keys already
present — keeps the first occurrence of each element, in order. -/
def pyDictFromKeys (l : List String) : List String :=
  l.foldl (fun acc a => if a ∈ acc then acc else acc ++ [a]) []

/-- sorted(set(l)): the ascending sorted list of distinct elements. -/
def pySortedSet (l : List String) : List String :=
  l.dedup.mergeSort (fun a b => decide (a ≤ b))

/-- Keep-first-occurrence deduplication: the head is kept and all its later
duplicates are dropped before deduplicating the rest.  This is the
recursive characterisation of list(dict.fromkeys(l)). -/
def dedupFirst : List String → List String
  | [] => []
  | a :: l => a :: dedupFirst (l.filter (fun x => x ≠ a))
termination_by l => l.length
decreasing_by
  simp only [List.length_cons]
  exact Nat.lt_succ_of_le (List.length_filter_le _ l)

/-- TemplateGenerator.__init__ state: the registry, the project name and
the selected component list. -/
structure TemplateGenerator where
  registry : Registry
  project_name : String
  components : List String

/-- The derived project slug: lower-cased, spaces and underscores turned
into dashes. -/
def TemplateGenerator.project_slug (g : TemplateGenerator) : String :=
  ((g.project_name.toLower).replace " " "-").replace "_" "-"

/-- self.component_specs: the dict comprehension keeping, of the selected
names, those present in the registry. -/
def TemplateGenerator.component_specs (g : TemplateGenerator) (n : String) :
    Option ComponentSpec :=
  if n ∈ g.components then alist_get n g.registry else none

/-- The contribution one selected name makes inside the aggregation loops:
its spec's field when the name is registered, nothing otherwise. -/
def TemplateGenerator.contrib (g : TemplateGenerator)
    (field : ComponentSpec → List String) (n : String) : List String :=
  match g.component_specs n with
  | some s => field s
  | none => []

/-- The aggregation _get_docker_services: concatenate the selected components' docker
services in order, then list(dict.fromkeys(...)). -/
def TemplateGenerator.get_docker_services (g : TemplateGenerator) :
    List String :=
  pyDictFromKeys (g.components.flatMap (g.contrib ComponentSpec.docker_services))

/-- The aggregation _get_pyproject_deps: concatenate the selected components' dependency
lists, then sorted(set(...)). -/
def TemplateGenerator.get_pyproject_deps (g : TemplateGenerator) :
    List String :=
  pySortedSet (g.components.flatMap (g.contrib ComponentSpec.pyproject_deps))

/-- get_template_files: concatenate the selected components' template file
lists in order, then list(dict.fromkeys(...)). -/
def TemplateGenerator.get_template_files (g : TemplateGenerator) :
    List String :=
  pyDictFromKeys (g.components.flatMap (g.contrib ComponentSpec.template_files))

/-- The cookiecutter context built by get_template_context. -/
structure TemplateContext where
  project_name : String
  project_slug : String
  include_redis : String
  include_worker : String
  include_scheduler : String
  has_background_infrastructure : Bool
  needs_redis : Bool
  selected_components : List String
  docker_services : List String
  pyproject_dependencies : List String

/-- get_template_context: per-component yes/no flags, derived flags and the
aggregated lists. -/
def TemplateGenerator.get_template_context (g : TemplateGenerator) :
    TemplateContext where
  project_name := g.project_name
  project_slug := g.project_slug
  include_redis := if "redis" ∈ g.components then "yes" else "no"
  include_worker := if "worker" ∈ g.components then "yes" else "no"
  include_scheduler := if "scheduler" ∈ g.components then "yes" else "no"
  has_background_infrastructure :=
    ["worker", "scheduler"].any (fun n => g.components.contains n)
  needs_redis := g.components.contains "redis"
  selected_components := g.components
  docker_services := g.get_docker_services
  pyproject_dependencies := g.get_pyproject_deps

/-! ## Dependency resolver (aegis/core/dependency_resolver.py) -/

/-- Modelled from the spec: aegis/core/dependency_resolver.py is not among
the sources (only its callers are).  validate_components returns one error
string per requested name not present in the registry; an empty list means
valid. -/
def validate_components (registry : Registry) (names : List String) :
    List String :=
  names.filterMap (fun n =>
    if (alist_get n registry).isSome then none
    else some ("Unknown component: " ++ n))

/-- The requirements contributed in one scan of the registry: the union of
the requires sets of registry components currently in S. -/
def requiresOfMembers (registry : Registry) (S : Finset String) :
    Finset String :=
  registry.foldr
    (fun c acc => if c.1 ∈ S then c.2.requires.toFinset ∪ acc else acc) ∅

/-- One full pass of the fixpoint loop: union in every current member's
requires set. -/
def resolveStep (registry : Registry) (S : Finset String) : Finset String :=
  S ∪ requiresOfMembers registry S

/-- Iterate passes until a full pass adds nothing (or the fuel runs out;
the fuel chosen below always suffices). -/
def resolveAux (registry : Registry) : ℕ → Finset String → Finset String
  | 0, S => S
  | n + 1, S =>
      if resolveStep registry S = S then S
      else resolveAux registry n (resolveStep registry S)

/-- Every name occurring in any requires set of the registry. -/
def allRequires (registry : Registry) : Finset String :=
  registry.foldr (fun c acc => c.2.requires.toFinset ∪ acc) ∅

/-- Modelled from the spec: DependencyResolver.resolve_dependencies —
start from the requested set and repeatedly scan the registry, adding
missing requirements, until the set stops growing (transitive-closure
fixpoint). -/
def resolve_dependencies (registry : Registry) (names : List String) :
    Finset String :=
  resolveAux registry ((names.toFinset ∪ allRequires registry).card + 1)
    names.toFinset

/-! ## Concrete inputs used to evaluate the model -/

/-- A probe registry with one probe returning a tree whose grandchild is
unhealthy while the node itself and its child are healthy. -/
def cexChecks : List (String × (ProbeOutcome × ℚ)) :=
  [("probe",
    (.ok (.mk "probe" true "ok" none []
      [("child", .mk "child" true "ok" none []
        [("grand", .mk "grand" false "bad" none [] [])])]),
     0))]

/-- Metric probes that all succeed instantly for the concrete evaluation. -/
def cexFresh : String → ProbeOutcome × ℚ := fun _ => (.okBool true, 0)

/-- A small concrete registry mirroring the aegis component registry as the
spec describes it: redis stands alone, worker requires redis, scheduler
stands alone. -/
def sampleRegistry : Registry :=
  [("redis", ⟨[], [], ["redis"], ["redis>=5.0.0"], ["docker-compose.redis.yml"]⟩),
   ("worker", ⟨["redis"], [],
     ["worker", "redis"], ["arq>=0.25.0", "redis>=5.0.0"],
     ["app/components/worker/main.py", "docker-compose.redis.yml"]⟩),
   ("scheduler", ⟨[], ["worker"], [], ["apscheduler>=3.10.0"],
     ["app/components/scheduler/main.py"]⟩)]

/-! ## Association-list lemmas -/

theorem alist_get_cons {β : Type} (k : String) (p : String × β)
    (l : List (String × β)) :
    alist_get k (p :: l) = if p.1 = k then some p.2 else alist_get k l := by
  by_cases h : p.1 = k <;> simp [alist_get, List.find?_cons, h]

theorem alist_get_append {β : Type} (k : String) (l₁ l₂ : List (String × β)) :
    alist_get k (l₁ ++ l₂) =
      match alist_get k l₁ with
      | some v => some v
      | none => alist_get k l₂ := by
  induction l₁ with
  | nil => simp [alist_get]
  | cons p rest ih =>
    by_cases h : p.1 = k <;> simp [alist_get_cons, h, ih]

theorem alist_get_keyMap {α β : Type} (g : String → α → β) (k : String)
    (l : List (String × α)) :
    alist_get k (l.map (fun p => (p.1, g p.1 p.2))) =
      (alist_get k l).map (g k) := by
  induction l with
  | nil => rfl
  | cons p rest ih =>
    by_cases h : p.1 = k
    · subst h; simp [alist_get_cons]
    · simpa [alist_get_cons, h] using ih

theorem alist_get_isSome_iff {β : Type} (k : String) (l : List (String × β)) :
    (alist_get k l).isSome = true ↔ k ∈ l.map Prod.fst := by
  induction l with
  | nil => simp [alist_get]
  | cons p rest ih =>
    by_cases h : p.1 = k
    · subst h; simp [alist_get_cons]
    · have h' : ¬k = p.1 := fun he => h he.symm
      simp [alist_get_cons, h, h', ih]

theorem alist_get_eq_none_iff {β : Type} (k : String) (l : List (String × β)) :
    alist_get k l = none ↔ k ∉ l.map Prod.fst := by
  rw [← alist_get_isSome_iff k l]
  cases alist_get k l <;> simp

theorem alist_get_of_mem_nodup {β : Type} {l : List (String × β)} {k : String}
    {v : β} (hnd : (l.map Prod.fst).Nodup) (h : (k, v) ∈ l) :
    alist_get k l = some v := by
  induction l with
  | nil => cases h
  | cons p rest ih =>
    rcases List.mem_cons.mp h with h1 | h1
    · subst h1; simp [alist_get_cons]
    · have hk : k ∈ rest.map Prod.fst :=
        List.mem_map.mpr ⟨(k, v), h1, rfl⟩
      have hne : p.1 ≠ k := by
        intro he
        exact (List.nodup_cons.mp (by simpa using hnd)).1 (he ▸ hk)
      rw [alist_get_cons]
      simp only [hne, if_false]
      exact ih (List.nodup_cons.mp (by simpa using hnd)).2 h1

theorem alist_get_setConst_ne {β : Type} (k₀ : String) (v : β)
    (l : List (String × β)) (k : String) (h : k ≠ k₀) :
    alist_get k (l.map (fun p => if p.1 = k₀ then (p.1, v) else p)) =
      alist_get k l := by
  induction l with
  | nil => rfl
  | cons p rest ih =>
    simp only [List.map_cons]
    by_cases hp : p.1 = k₀
    · have hpk : ¬p.1 = k := by rw [hp]; exact fun he => h he.symm
      rw [if_pos hp, alist_get_cons, alist_get_cons]
      simp only [hpk, if_false]
      exact ih
    · rw [if_neg hp, alist_get_cons, alist_get_cons]
      by_cases hk : p.1 = k <;> simp [hk, ih]

theorem alist_get_setConst_self {β : Type} (k₀ : String) (v : β)
    (l : List (String × β)) (hs : (alist_get k₀ l).isSome = true) :
    alist_get k₀ (l.map (fun p => if p.1 = k₀ then (p.1, v) else p)) =
      some v := by
  induction l with
  | nil => simp [alist_get] at hs
  | cons p rest ih =>
    simp only [List.map_cons]
    by_cases hp : p.1 = k₀
    · rw [if_pos hp, alist_get_cons]
      simp [hp]
    · rw [alist_get_cons] at hs
      simp only [hp, if_false] at hs
      rw [if_neg hp, alist_get_cons]
      simp only [hp, if_false]
      exact ih hs

theorem keys_setConst {β : Type} (k₀ : String) (v : β)
    (l : List (String × β)) :
    (l.map (fun p => if p.1 = k₀ then (p.1, v) else p)).map Prod.fst =
      l.map Prod.fst := by
  rw [List.map_map]
  exact List.map_congr_left (fun p _ => by by_cases h : p.1 = k₀ <;> simp [h])

/-! ## Cache lemmas -/

theorem alist_get_cacheSet_self (name : String) (v : ComponentStatus × ℚ)
    (c : CacheT) : alist_get name (cacheSet name v c) = some v := by
  unfold cacheSet
  by_cases h : (c.find? (fun p => p.1 = name)).isSome
  · rw [if_pos h]
    exact alist_get_setConst_self name v c (by simpa [alist_get] using h)
  · rw [if_neg h, alist_get_append]
    have hn : alist_get name c = none := by
      unfold alist_get
      cases hf : c.find? (fun p => p.1 = name) with
      | none => rfl
      | some w => rw [hf] at h; simp at h
    rw [hn]
    simp [alist_get_cons]

theorem alist_get_cacheSet_ne (name k : String) (v : ComponentStatus × ℚ)
    (c : CacheT) (h : k ≠ name) :
    alist_get k (cacheSet name v c) = alist_get k c := by
  unfold cacheSet
  by_cases hf : (c.find? (fun p => p.1 = name)).isSome
  · rw [if_pos hf]
    exact alist_get_setConst_ne name v c k h
  · rw [if_neg hf, alist_get_append]
    cases hg : alist_get k c with
    | none =>
        have hnk : ¬name = k := fun he => h he.symm
        simp [alist_get_cons, alist_get, hnk]
    | some w => rfl

theorem alist_get_foldl_cacheSet_notmem (names : List String)
    (f : String → ComponentStatus × ℚ) (c : CacheT) (k : String)
    (h : k ∉ names) :
    alist_get k (names.foldl (fun acc nm => cacheSet nm (f nm) acc) c) =
      alist_get k c := by
  induction names generalizing c with
  | nil => rfl
  | cons a rest ih =>
    have hka : k ≠ a := fun he => h (he ▸ List.mem_cons_self a rest)
    have hkr : k ∉ rest := fun hm => h (List.mem_cons_of_mem a hm)
    rw [List.foldl_cons, ih _ hkr, alist_get_cacheSet_ne a k (f a) c hka]

theorem alist_get_foldl_cacheSet_mem (names : List String)
    (f : String → ComponentStatus × ℚ) (c : CacheT) (k : String)
    (h : k ∈ names) (hnd : names.Nodup) :
    alist_get k (names.foldl (fun acc nm => cacheSet nm (f nm) acc) c) =
      some (f k) := by
  induction names generalizing c with
  | nil => cases h
  | cons a rest ih =>
    rcases List.mem_cons.mp h with h1 | h1
    · subst h1
      have hk : k ∉ rest := (List.nodup_cons.mp hnd).1
      rw [List.foldl_cons,
        alist_get_foldl_cacheSet_notmem rest f _ k hk,
        alist_get_cacheSet_self]
    · rw [List.foldl_cons]
      exact ih _ h1 (List.nodup_cons.mp hnd).2

/-! ## Metric and snapshot structural lemmas -/

theorem alist_get_mapSelf {β : Type} (f : String → β) (k : String)
    (names : List String) (h : k ∈ names) :
    alist_get k (names.map (fun nm => (nm, f nm))) = some (f k) := by
  induction names with
  | nil => cases h
  | cons a rest ih =>
    by_cases hk : a = k
    · subst hk; simp [alist_get_cons]
    · rcases List.mem_cons.mp h with h1 | h1
      · exact (hk h1.symm).elim
      · simp [alist_get_cons, hk, ih h1]

theorem metricNames_nodup : metricNames.Nodup := by decide

theorem alist_get_metrics_results (cache : CacheT) (cur dur : ℚ)
    (fresh : String → ProbeOutcome × ℚ) (name : String)
    (h : name ∈ metricNames) :
    alist_get name (get_cached_system_metrics cache cur dur fresh).1 =
      some (metricResult cache dur cur fresh name) := by
  unfold get_cached_system_metrics
  exact alist_get_mapSelf _ name metricNames h

theorem alist_get_metrics_cache_of_hit (cache : CacheT) (cur dur : ℚ)
    (fresh : String → ProbeOutcome × ℚ) (name : String)
    (hhit : metricCacheHit cache dur cur name = true) :
    alist_get name (get_cached_system_metrics cache cur dur fresh).2 =
      alist_get name cache := by
  unfold get_cached_system_metrics
  apply alist_get_foldl_cacheSet_notmem
  intro hmem
  have := (List.mem_filter.mp hmem).2
  rw [hhit] at this
  simp at this

theorem alist_get_metrics_cache_of_miss (cache : CacheT) (cur dur : ℚ)
    (fresh : String → ProbeOutcome × ℚ) (name : String)
    (h : name ∈ metricNames)
    (hmiss : metricCacheHit cache dur cur name = false) :
    alist_get name (get_cached_system_metrics cache cur dur fresh).2 =
      some (metricResult cache dur cur fresh name, cur) := by
  unfold get_cached_system_metrics
  apply alist_get_foldl_cacheSet_mem
  · exact List.mem_filter.mpr ⟨h, by rw [hmiss]; rfl⟩
  · exact metricNames_nodup.filter _

theorem rootSubs_get_system_status (checks : List (String × (ProbeOutcome × ℚ)))
    (cache : CacheT) (duration start : ℚ) (fresh : String → ProbeOutcome × ℚ)
    (sysinfo : List (String × MetaVal)) :
    (get_system_status checks cache duration start fresh sysinfo).1.rootSubs =
      backendCompose
        (checks.map (fun c => (c.1, run_health_check c.1 c.2.1 c.2.2)))
        (get_cached_system_metrics cache start duration fresh).1 := by
  simp [get_system_status, SystemStatus.rootSubs, alist_get_cons,
    ComponentStatus.sub_components]

theorem alist_get_backendCompose_ne (rs metrics : List (String × ComponentStatus))
    (n : String) (hn : n ≠ "backend") :
    alist_get n (backendCompose rs metrics) = alist_get n rs := by
  unfold backendCompose
  cases hb : alist_get "backend" rs with
  | some b => exact alist_get_setConst_ne "backend" _ rs n hn
  | none =>
    rw [alist_get_append]
    cases hg : alist_get n rs with
    | some w => rfl
    | none =>
      have hbn : ¬"backend" = n := fun he => hn he.symm
      simp [alist_get_cons, alist_get, hbn]

theorem alist_get_backendCompose_some (rs metrics : List (String × ComponentStatus))
    (b : ComponentStatus) (hb : alist_get "backend" rs = some b) :
    alist_get "backend" (backendCompose rs metrics) =
      some (b.withSubComponents metrics) := by
  unfold backendCompose
  rw [hb]
  exact alist_get_setConst_self "backend" _ rs (by rw [hb]; rfl)

theorem alist_get_backendCompose_none (rs metrics : List (String × ComponentStatus))
    (hb : alist_get "backend" rs = none) :
    alist_get "backend" (backendCompose rs metrics) =
      some (virtualBackend metrics) := by
  unfold backendCompose
  rw [hb, alist_get_append, hb]
  simp [alist_get_cons]

theorem keys_backendCompose (rs metrics : List (String × ComponentStatus)) :
    (backendCompose rs metrics).map Prod.fst =
      if "backend" ∈ rs.map Prod.fst then rs.map Prod.fst
      else rs.map Prod.fst ++ ["backend"] := by
  unfold backendCompose
  cases hb : alist_get "backend" rs with
  | some b =>
    rw [keys_setConst, if_pos]
    exact (alist_get_isSome_iff "backend" rs).mp (by rw [hb]; rfl)
  | none =>
    rw [List.map_append, if_neg]
    · rfl
    · exact (alist_get_eq_none_iff "backend" rs).mp hb

/-! ## Claim theorems -/

theorem keys_map_run (checks : List (String × (ProbeOutcome × ℚ))) :
    ((checks.map (fun c => (c.1, run_health_check c.1 c.2.1 c.2.2))).map
      Prod.fst) = checks.map Prod.fst := by
  rw [List.map_map]; rfl

/-- C2: a registered probe that raises during a poll is converted by the
runner into an unhealthy ComponentStatus whose message carries the error
text (with the non-empty prefix "Error: "), whose response time is the
measured elapsed value (not none); the conversion is total so no exception
reaches the poll's caller, and the snapshot entry of every other
(non-backend) probe is exactly the runner's result for that probe's own
outcome, unaffected by the failure. -/
theorem probe_error_contained (checks : List (String × (ProbeOutcome × ℚ)))
    (cache : CacheT) (duration start : ℚ)
    (fresh : String → ProbeOutcome × ℚ) (sysinfo : List (String × MetaVal))
    (n e : String) (t : ℚ)
    (hnd : (checks.map Prod.fst).Nodup)
    (hmem : (n, (ProbeOutcome.err e, t)) ∈ checks) (hnb : n ≠ "backend") :
    alist_get n (pollSnapshot checks cache duration start fresh sysinfo).rootSubs =
      some (ComponentStatus.mk n false ("Error: " ++ e) (some t) [] []) ∧
    0 < ("Error: " ++ e).length ∧
    (∀ m o' t', (m, (o', t')) ∈ checks → m ≠ n → m ≠ "backend" →
      alist_get m (pollSnapshot checks cache duration start fresh sysinfo).rootSubs =
        some (run_health_check m o' t')) := by
  have hkeys : ((checks.map
      (fun c => (c.1, run_health_check c.1 c.2.1 c.2.2))).map Prod.fst).Nodup := by
    rw [keys_map_run]; exact hnd
  refine ⟨?_, ?_, ?_⟩
  · rw [show (pollSnapshot checks cache duration start fresh sysinfo).rootSubs =
        backendCompose
          (checks.map (fun c => (c.1, run_health_check c.1 c.2.1 c.2.2)))
          (get_cached_system_metrics cache start duration fresh).1 from
      rootSubs_get_system_status checks cache duration start fresh sysinfo]
    rw [alist_get_backendCompose_ne _ _ n hnb]
    exact alist_get_of_mem_nodup hkeys
      (List.mem_map.mpr ⟨(n, (ProbeOutcome.err e, t)), hmem, rfl⟩)
  · rw [String.length_append]
    have h7 : "Error: ".length = 7 := rfl
    omega
  · intro m o' t' hm hmn hmb
    rw [show (pollSnapshot checks cache duration start fresh sysinfo).rootSubs =
        backendCompose
          (checks.map (fun c => (c.1, run_health_check c.1 c.2.1 c.2.2)))
          (get_cached_system_metrics cache start duration fresh).1 from
      rootSubs_get_system_status checks cache duration start fresh sysinfo]
    rw [alist_get_backendCompose_ne _ _ m hmb]
    exact alist_get_of_mem_nodup hkeys
      (List.mem_map.mpr ⟨(m, (o', t')), hm, rfl⟩)

/-- C2 witness: a concrete poll with one raising probe and one healthy
sibling, evaluated at the theorem's statement. -/
theorem probe_error_contained_witness :
    alist_get "flaky"
      (pollSnapshot [("flaky", (.err "boom", 3)), ("other", (.okBool true, 2))]
        [] 1 0 cexFresh []).rootSubs =
      some (ComponentStatus.mk "flaky" false ("Error: " ++ "boom") (some 3) [] []) ∧
    0 < ("Error: " ++ "boom").length ∧
    (∀ m o' t',
      (m, (o', t')) ∈
        ([("flaky", (.err "boom", 3)), ("other", (.okBool true, 2))] :
          List (String × (ProbeOutcome × ℚ))) →
      m ≠ "flaky" → m ≠ "backend" →
      alist_get m
        (pollSnapshot [("flaky", (.err "boom", 3)), ("other", (.okBool true, 2))]
          [] 1 0 cexFresh []).rootSubs = some (run_health_check m o' t')) :=
  probe_error_contained
    [("flaky", (.err "boom", 3)), ("other", (.okBool true, 2))]
    [] 1 0 cexFresh [] "flaky" "boom" 3
    (by decide) (by simp) (by decide)

/-- C3: per-metric caching.  For each of memory, disk and cpu: when the
metric's cached entry is younger than the cache duration at poll time, the
cached ComponentStatus is returned verbatim (hence same metadata and
message), the cache entry is left untouched, and the result does not
depend on the metric probe at all (so the probe is not invoked); otherwise
the fresh runner result is returned and stored in that metric's own entry
with the current poll time.  A metric's outcome depends only on its own
cache entry and its own probe, so one metric's miss never recomputes a
sibling. -/
theorem metrics_cache_per_metric (cache : CacheT) (cur dur : ℚ)
    (fresh : String → ProbeOutcome × ℚ) (name : String)
    (hname : name ∈ metricNames) :
    (∀ r tc, alist_get name cache = some (r, tc) → cur - tc < dur →
      alist_get name (get_cached_system_metrics cache cur dur fresh).1 = some r ∧
      alist_get name (get_cached_system_metrics cache cur dur fresh).2 =
        some (r, tc) ∧
      (∀ fresh2 : String → ProbeOutcome × ℚ,
        alist_get name (get_cached_system_metrics cache cur dur fresh2).1 =
          some r)) ∧
    (metricCacheHit cache dur cur name = false →
      alist_get name (get_cached_system_metrics cache cur dur fresh).1 =
        some (run_health_check name (fresh name).1 (fresh name).2) ∧
      alist_get name (get_cached_system_metrics cache cur dur fresh).2 =
        some (run_health_check name (fresh name).1 (fresh name).2, cur)) ∧
    (∀ (cache2 : CacheT) (fresh2 : String → ProbeOutcome × ℚ),
      alist_get name cache2 = alist_get name cache →
      fresh2 name = fresh name →
      alist_get name (get_cached_system_metrics cache2 cur dur fresh2).1 =
        alist_get name (get_cached_system_metrics cache cur dur fresh).1) := by
  refine ⟨?_, ?_, ?_⟩
  · intro r tc hc hage
    have hhit : metricCacheHit cache dur cur name = true := by
      unfold metricCacheHit
      rw [hc]
      exact decide_eq_true hage
    have hres : ∀ fresh2 : String → ProbeOutcome × ℚ,
        metricResult cache dur cur fresh2 name = r := by
      intro fresh2
      unfold metricResult
      rw [if_pos hhit, hc]
    refine ⟨?_, ?_, ?_⟩
    · rw [alist_get_metrics_results cache cur dur fresh name hname, hres fresh]
    · rw [alist_get_metrics_cache_of_hit cache cur dur fresh name hhit, hc]
    · intro fresh2
      rw [alist_get_metrics_results cache cur dur fresh2 name hname, hres fresh2]
  · intro hmiss
    have hres : metricResult cache dur cur fresh name =
        run_health_check name (fresh name).1 (fresh name).2 := by
      unfold metricResult
      rw [if_neg (by rw [hmiss]; exact Bool.false_ne_true)]
    refine ⟨?_, ?_⟩
    · rw [alist_get_metrics_results cache cur dur fresh name hname, hres]
    · rw [alist_get_metrics_cache_of_miss cache cur dur fresh name hname hmiss,
        hres]
  · intro cache2 fresh2 hc hf
    rw [alist_get_metrics_results cache cur dur fresh name hname,
      alist_get_metrics_results cache2 cur dur fresh2 name hname]
    have hhit : metricCacheHit cache2 dur cur name =
        metricCacheHit cache dur cur name := by
      unfold metricCacheHit
      rw [hc]
    unfold metricResult
    rw [hhit, hc, hf]

/-- C3 witness: the memory metric with a fresh cached entry, applied at a
concrete cache, duration and probe assignment. -/
theorem metrics_cache_per_metric_witness :
    ("memory" ∈ metricNames) ∧
    ((∀ r tc,
        alist_get "memory"
          ([("memory", (ComponentStatus.mk "memory" true "cached" none [] [], 1))] :
            CacheT) = some (r, tc) →
        (5 : ℚ) - tc < 30 →
        alist_get "memory"
          (get_cached_system_metrics
            [("memory", (ComponentStatus.mk "memory" true "cached" none [] [], 1))]
            5 30 cexFresh).1 = some r ∧
        alist_get "memory"
          (get_cached_system_metrics
            [("memory", (ComponentStatus.mk "memory" true "cached" none [] [], 1))]
            5 30 cexFresh).2 = some (r, tc) ∧
        (∀ fresh2 : String → ProbeOutcome × ℚ,
          alist_get "memory"
            (get_cached_system_metrics
              [("memory", (ComponentStatus.mk "memory" true "cached" none [] [], 1))]
              5 30 fresh2).1 = some r)) ∧
      (metricCacheHit
          [("memory", (ComponentStatus.mk "memory" true "cached" none [] [], 1))]
          30 5 "memory" = false →
        alist_get "memory"
          (get_cached_system_metrics
            [("memory", (ComponentStatus.mk "memory" true "cached" none [] [], 1))]
            5 30 cexFresh).1 =
          some (run_health_check "memory" (cexFresh "memory").1
            (cexFresh "memory").2) ∧
        alist_get "memory"
          (get_cached_system_metrics
            [("memory", (ComponentStatus.mk "memory" true "cached" none [] [], 1))]
            5 30 cexFresh).2 =
          some (run_health_check "memory" (cexFresh "memory").1
            (cexFresh "memory").2, 5)) ∧
      (∀ (cache2 : CacheT) (fresh2 : String → ProbeOutcome × ℚ),
        alist_get "memory" cache2 =
          alist_get "memory"
            ([("memory", (ComponentStatus.mk "memory" true "cached" none [] [], 1))] :
              CacheT) →
        fresh2 "memory" = cexFresh "memory" →
        alist_get "memory" (get_cached_system_metrics cache2 5 30 fresh2).1 =
          alist_get "memory"
            (get_cached_system_metrics
              [("memory", (ComponentStatus.mk "memory" true "cached" none [] [], 1))]
              5 30 cexFresh).1)) :=
  ⟨by decide,
   metrics_cache_per_metric
     [("memory", (ComponentStatus.mk "memory" true "cached" none [] [], 1))]
     5 30 cexFresh "memory" (by decide)⟩

/-- C5: in every snapshot the system metrics are the sub_components of the
node keyed "backend": a registered backend probe's runner result is kept
with all its scalar fields preserved and the metrics substituted as its
sub_components; with no backend probe a synthetic node is created whose
healthy is the AND over the metrics and whose message reflects it. -/
theorem backend_metrics_composition
    (checks : List (String × (ProbeOutcome × ℚ))) (cache : CacheT)
    (duration start : ℚ) (fresh : String → ProbeOutcome × ℚ)
    (sysinfo : List (String × MetaVal))
    (hnd : (checks.map Prod.fst).Nodup) :
    (∀ o t, ("backend", (o, t)) ∈ checks →
      alist_get "backend"
          (pollSnapshot checks cache duration start fresh sysinfo).rootSubs =
        some ((run_health_check "backend" o t).withSubComponents
          (get_cached_system_metrics cache start duration fresh).1)) ∧
    ("backend" ∉ checks.map Prod.fst →
      alist_get "backend"
          (pollSnapshot checks cache duration start fresh sysinfo).rootSubs =
        some (virtualBackend (get_cached_system_metrics cache start duration fresh).1)) ∧
    (∀ metrics : List (String × ComponentStatus),
      (virtualBackend metrics).name = "backend" ∧
      (virtualBackend metrics).healthy = metrics.all (fun p => p.2.healthy) ∧
      (virtualBackend metrics).message =
        (if metrics.all (fun p => p.2.healthy) then "System container metrics"
         else "System container has issues") ∧
      (virtualBackend metrics).sub_components = metrics) ∧
    (∀ (c : ComponentStatus) (sc : List (String × ComponentStatus)),
      (c.withSubComponents sc).name = c.name ∧
      (c.withSubComponents sc).healthy = c.healthy ∧
      (c.withSubComponents sc).message = c.message ∧
      (c.withSubComponents sc).response_time_ms = c.response_time_ms ∧
      (c.withSubComponents sc).metadata = c.metadata ∧
      (c.withSubComponents sc).sub_components = sc) := by
  have hkeys : ((checks.map
      (fun c => (c.1, run_health_check c.1 c.2.1 c.2.2))).map Prod.fst).Nodup := by
    rw [keys_map_run]; exact hnd
  refine ⟨?_, ?_, ?_, ?_⟩
  · intro o t hmem
    rw [show (pollSnapshot checks cache duration start fresh sysinfo).rootSubs =
        backendCompose
          (checks.map (fun c => (c.1, run_health_check c.1 c.2.1 c.2.2)))
          (get_cached_system_metrics cache start duration fresh).1 from
      rootSubs_get_system_status checks cache duration start fresh sysinfo]
    exact alist_get_backendCompose_some _ _ _
      (alist_get_of_mem_nodup hkeys
        (List.mem_map.mpr ⟨("backend", (o, t)), hmem, rfl⟩))
  · intro hout
    rw [show (pollSnapshot checks cache duration start fresh sysinfo).rootSubs =
        backendCompose
          (checks.map (fun c => (c.1, run_health_check c.1 c.2.1 c.2.2)))
          (get_cached_system_metrics cache start duration fresh).1 from
      rootSubs_get_system_status checks cache duration start fresh sysinfo]
    refine alist_get_backendCompose_none _ _ ?_
    rw [alist_get_eq_none_iff, keys_map_run]
    exact hout
  · intro metrics
    refine ⟨rfl, rfl, rfl, rfl⟩
  · intro c sc
    cases c
    exact ⟨rfl, rfl, rfl, rfl, rfl, rfl⟩

/-- C5 witness: a concrete poll with a registered backend probe, and the
accessor facts at a concrete node. -/
theorem backend_metrics_composition_witness :
    (∀ o t,
      ("backend", (o, t)) ∈
        ([("backend", (.okBool true, 2))] : List (String × (ProbeOutcome × ℚ))) →
      alist_get "backend"
          (pollSnapshot [("backend", (.okBool true, 2))] [] 1 0 cexFresh []).rootSubs =
        some ((run_health_check "backend" o t).withSubComponents
          (get_cached_system_metrics [] 0 1 cexFresh).1)) ∧
    ("backend" ∉
        ([("backend", (.okBool true, 2))] :
          List (String × (ProbeOutcome × ℚ))).map Prod.fst →
      alist_get "backend"
          (pollSnapshot [("backend", (.okBool true, 2))] [] 1 0 cexFresh []).rootSubs =
        some (virtualBackend (get_cached_system_metrics [] 0 1 cexFresh).1)) ∧
    (∀ metrics : List (String × ComponentStatus),
      (virtualBackend metrics).name = "backend" ∧
      (virtualBackend metrics).healthy = metrics.all (fun p => p.2.healthy) ∧
      (virtualBackend metrics).message =
        (if metrics.all (fun p => p.2.healthy) then "System container metrics"
         else "System container has issues") ∧
      (virtualBackend metrics).sub_components = metrics) ∧
    (∀ (c : ComponentStatus) (sc : List (String × ComponentStatus)),
      (c.withSubComponents sc).name = c.name ∧
      (c.withSubComponents sc).healthy = c.healthy ∧
      (c.withSubComponents sc).message = c.message ∧
      (c.withSubComponents sc).response_time_ms = c.response_time_ms ∧
      (c.withSubComponents sc).metadata = c.metadata ∧
      (c.withSubComponents sc).sub_components = sc) :=
  backend_metrics_composition [("backend", (.okBool true, 2))] [] 1 0 cexFresh []
    (by decide)

/-- C9: every snapshot has exactly one top-level component, keyed and named
"aegis"; its healthy flag coincides with the snapshot's overall_healthy;
its sub_components are keyed by the registered probes plus "backend", and
each non-backend probe's entry is exactly the runner's result for it. -/
theorem aegis_root_structure (checks : List (String × (ProbeOutcome × ℚ)))
    (cache : CacheT) (duration start : ℚ)
    (fresh : String → ProbeOutcome × ℚ) (sysinfo : List (String × MetaVal))
    (hnd : (checks.map Prod.fst).Nodup) :
    ((pollSnapshot checks cache duration start fresh sysinfo).components.map
        Prod.fst = ["aegis"]) ∧
    (∀ p ∈ (pollSnapshot checks cache duration start fresh sysinfo).components,
      p.2.name = "aegis" ∧
      p.2.healthy =
        (pollSnapshot checks cache duration start fresh sysinfo).overall_healthy ∧
      p.2.sub_components.map Prod.fst =
        (if "backend" ∈ checks.map Prod.fst then checks.map Prod.fst
         else checks.map Prod.fst ++ ["backend"]) ∧
      (∀ m o' t', (m, (o', t')) ∈ checks → m ≠ "backend" →
        alist_get m p.2.sub_components = some (run_health_check m o' t'))) := by
  have hkeys : ((checks.map
      (fun c => (c.1, run_health_check c.1 c.2.1 c.2.2))).map Prod.fst).Nodup := by
    rw [keys_map_run]; exact hnd
  refine ⟨rfl, ?_⟩
  intro p hp
  rcases List.mem_singleton.mp hp with rfl
  refine ⟨rfl, rfl, ?_, ?_⟩
  · show (backendCompose
        (checks.map (fun c => (c.1, run_health_check c.1 c.2.1 c.2.2)))
        (get_cached_system_metrics cache start duration fresh).1).map Prod.fst = _
    rw [keys_backendCompose, keys_map_run]
  · intro m o' t' hm hmb
    show alist_get m (backendCompose
        (checks.map (fun c => (c.1, run_health_check c.1 c.2.1 c.2.2)))
        (get_cached_system_metrics cache start duration fresh).1) = _
    rw [alist_get_backendCompose_ne _ _ m hmb]
    exact alist_get_of_mem_nodup hkeys
      (List.mem_map.mpr ⟨(m, (o', t')), hm, rfl⟩)

/-- C9 witness: the root invariant at a concrete poll. -/
theorem aegis_root_structure_witness :
    ((pollSnapshot [("probe", (.okBool true, 2))] [] 1 0 cexFresh []).components.map
        Prod.fst = ["aegis"]) ∧
    (∀ p ∈ (pollSnapshot [("probe", (.okBool true, 2))] [] 1 0 cexFresh []).components,
      p.2.name = "aegis" ∧
      p.2.healthy =
        (pollSnapshot [("probe", (.okBool true, 2))] [] 1 0 cexFresh []).overall_healthy ∧
      p.2.sub_components.map Prod.fst =
        (if "backend" ∈
            ([("probe", (.okBool true, 2))] :
              List (String × (ProbeOutcome × ℚ))).map Prod.fst
         then ([("probe", (.okBool true, 2))] :
              List (String × (ProbeOutcome × ℚ))).map Prod.fst
         else ([("probe", (.okBool true, 2))] :
              List (String × (ProbeOutcome × ℚ))).map Prod.fst ++ ["backend"]) ∧
      (∀ m o' t',
        (m, (o', t')) ∈
          ([("probe", (.okBool true, 2))] : List (String × (ProbeOutcome × ℚ))) →
        m ≠ "backend" →
        alist_get m p.2.sub_components = some (run_health_check m o' t'))) :=
  aegis_root_structure [("probe", (.okBool true, 2))] [] 1 0 cexFresh []
    (by decide)

theorem oneLevel_all_iff (rs : List (String × ComponentStatus)) :
    ((oneLevelStatuses rs).all (fun s => s.healthy) = true ↔
      ∀ p ∈ rs, p.2.healthy = true ∧
        ∀ q ∈ p.2.sub_components, q.2.healthy = true) := by
  simp only [oneLevelStatuses, List.all_append, Bool.and_eq_true,
    List.all_eq_true, List.mem_map, List.mem_flatMap]
  constructor
  · rintro ⟨h1, h2⟩ p hp
    exact ⟨h1 _ ⟨p, hp, rfl⟩, fun q hq => h2 _ ⟨p, hp, q, hq, rfl⟩⟩
  · intro h
    constructor
    · rintro x ⟨p, hp, rfl⟩
      exact (h p hp).1
    · rintro x ⟨p, hp, q, hq, rfl⟩
      exact (h p hp).2 q hq

/-- C1 counterexample: a single probe returning a tree whose grandchild is
unhealthy (with every top-level node and direct child healthy) yields a
snapshot with overall_healthy = true even though a node at depth three of
the component tree is unhealthy — refuting the claim that overall_healthy
is the AND over every node at every nesting depth. -/
theorem overall_health_misses_deep_nodes :
    (pollSnapshot cexChecks [] 1 0 cexFresh []).overall_healthy = true ∧
    deepHealthyList (pollSnapshot cexChecks [] 1 0 cexFresh []).components =
      false := by
  exact ⟨rfl, rfl⟩

/-- C1 (amended): overall_healthy is true iff every top-level component
result and every direct sub-component of those results is healthy; the
flattening in get_system_status descends exactly one level below the
per-component results, so deeper descendants influence overall_healthy
only through their ancestors' own healthy flags. -/
theorem overall_health_one_level (checks : List (String × (ProbeOutcome × ℚ)))
    (cache : CacheT) (duration start : ℚ)
    (fresh : String → ProbeOutcome × ℚ) (sysinfo : List (String × MetaVal)) :
    ((pollSnapshot checks cache duration start fresh sysinfo).overall_healthy =
        true ↔
      ∀ p ∈ (pollSnapshot checks cache duration start fresh sysinfo).rootSubs,
        p.2.healthy = true ∧
        ∀ q ∈ p.2.sub_components, q.2.healthy = true) := by
  rw [show (pollSnapshot checks cache duration start fresh sysinfo).rootSubs =
      backendCompose
        (checks.map (fun c => (c.1, run_health_check c.1 c.2.1 c.2.2)))
        (get_cached_system_metrics cache start duration fresh).1 from
    rootSubs_get_system_status checks cache duration start fresh sysinfo]
  exact oneLevel_all_iff _

/-- C6: each system-metric check is healthy exactly when the unrounded
measured percentage is strictly below its configured threshold; the
percentage shown in the message is rounded to one decimal digit and the
gigabyte quantities in metadata to two, while the metadata percentage and
the value compared against the threshold stay unrounded. -/
theorem metric_threshold_comparisons (mp tot avail du dt df cp th1 th2 th3 : ℚ)
    (cnt : ℕ) (hdt : 0 < dt) :
    ((check_memory mp tot avail th1).healthy = true ↔ mp < th1) ∧
    (alist_get "percent_used" (check_memory mp tot avail th1).metadata =
      some (.n mp)) ∧
    ((check_memory mp tot avail th1).message =
      "Memory usage: " ++ fmtQ (roundTo 1 mp) ++ "%") ∧
    (alist_get "total_gb" (check_memory mp tot avail th1).metadata =
      some (.n (roundTo 2 (tot / 1024 ^ 3)))) ∧
    (alist_get "available_gb" (check_memory mp tot avail th1).metadata =
      some (.n (roundTo 2 (avail / 1024 ^ 3)))) ∧
    ((check_disk_space du dt df th2).healthy = true ↔ du / dt * 100 < th2) ∧
    (alist_get "percent_used" (check_disk_space du dt df th2).metadata =
      some (.n (du / dt * 100))) ∧
    ((check_disk_space du dt df th2).message =
      "Disk usage: " ++ fmtQ (roundTo 1 (du / dt * 100)) ++ "%") ∧
    ((check_cpu_usage cp cnt th3).healthy = true ↔ cp < th3) ∧
    (alist_get "percent_used" (check_cpu_usage cp cnt th3).metadata =
      some (.n cp)) ∧
    ((check_cpu_usage cp cnt th3).message =
      "CPU usage: " ++ fmtQ (roundTo 1 cp) ++ "%") := by
  refine ⟨?_, rfl, rfl, ?_, ?_, ?_, rfl, rfl, ?_, rfl, rfl⟩
  · exact decide_eq_true_iff
  · rfl
  · rfl
  · exact decide_eq_true_iff
  · exact decide_eq_true_iff

/-- C6 witness: memory at 89.96% against a 90% threshold (healthy despite
the displayed one-digit rounding reaching the threshold), disk at
40/100 blocks against 90%, cpu at 12.5% against 80%. -/
theorem metric_threshold_comparisons_witness :
    (0 : ℚ) < 100 ∧
    (((check_memory (8996 / 100) 16 8 90).healthy = true ↔
        (8996 / 100 : ℚ) < 90) ∧
      (alist_get "percent_used" (check_memory (8996 / 100) 16 8 90).metadata =
        some (.n (8996 / 100))) ∧
      ((check_memory (8996 / 100) 16 8 90).message =
        "Memory usage: " ++ fmtQ (roundTo 1 (8996 / 100)) ++ "%") ∧
      (alist_get "total_gb" (check_memory (8996 / 100) 16 8 90).metadata =
        some (.n (roundTo 2 (16 / 1024 ^ 3)))) ∧
      (alist_get "available_gb" (check_memory (8996 / 100) 16 8 90).metadata =
        some (.n (roundTo 2 (8 / 1024 ^ 3)))) ∧
      ((check_disk_space 40 100 60 90).healthy = true ↔
        (40 / 100 * 100 : ℚ) < 90) ∧
      (alist_get "percent_used" (check_disk_space 40 100 60 90).metadata =
        some (.n (40 / 100 * 100))) ∧
      ((check_disk_space 40 100 60 90).message =
        "Disk usage: " ++ fmtQ (roundTo 1 (40 / 100 * 100)) ++ "%") ∧
      ((check_cpu_usage (25 / 2) 4 80).healthy = true ↔ (25 / 2 : ℚ) < 80) ∧
      (alist_get "percent_used" (check_cpu_usage (25 / 2) 4 80).metadata =
        some (.n (25 / 2))) ∧
      ((check_cpu_usage (25 / 2) 4 80).message =
        "CPU usage: " ++ fmtQ (roundTo 1 (25 / 2)) ++ "%")) :=
  ⟨by norm_num,
   metric_threshold_comparisons (8996 / 100) 16 8 40 100 60 (25 / 2) 90 90 80 4
     (by norm_num)⟩

theorem ifYes_eq_yes_iff (b : Prop) [Decidable b] :
    ((if b then "yes" else "no") = "yes") ↔ b := by
  by_cases h : b <;> simp [h]

theorem ifYes_eq_no_iff (b : Prop) [Decidable b] :
    ((if b then "yes" else "no") = "no") ↔ ¬b := by
  by_cases h : b <;> simp [h]

/-- C8: the generation context carries a yes/no flag for each of the three
optional components — "yes" exactly when the component is selected, "no"
exactly when it is not, and the flag exists either way — together with
has_background_infrastructure, true exactly when worker or scheduler is
selected, recomputed from the selection itself. -/
theorem template_context_flags (reg : Registry) (pname : String)
    (comps : List String) :
    (((TemplateGenerator.mk reg pname comps).get_template_context.include_redis =
        "yes") ↔ "redis" ∈ comps) ∧
    (((TemplateGenerator.mk reg pname comps).get_template_context.include_redis =
        "no") ↔ "redis" ∉ comps) ∧
    (((TemplateGenerator.mk reg pname comps).get_template_context.include_worker =
        "yes") ↔ "worker" ∈ comps) ∧
    (((TemplateGenerator.mk reg pname comps).get_template_context.include_worker =
        "no") ↔ "worker" ∉ comps) ∧
    (((TemplateGenerator.mk reg pname
        comps).get_template_context.include_scheduler = "yes") ↔
      "scheduler" ∈ comps) ∧
    (((TemplateGenerator.mk reg pname
        comps).get_template_context.include_scheduler = "no") ↔
      "scheduler" ∉ comps) ∧
    (((TemplateGenerator.mk reg pname
        comps).get_template_context.has_background_infrastructure = true) ↔
      ("worker" ∈ comps ∨ "scheduler" ∈ comps)) := by
  refine ⟨ifYes_eq_yes_iff _, ifYes_eq_no_iff _, ifYes_eq_yes_iff _,
    ifYes_eq_no_iff _, ifYes_eq_yes_iff _, ifYes_eq_no_iff _, ?_⟩
  show (["worker", "scheduler"].any (fun n => comps.contains n) = true) ↔ _
  simp [List.any_cons]

/-! ### C10 support -/

theorem flatMap_drop_nil {f : String → List String} {name : String}
    (hf : f name = []) (l : List String) :
    l.flatMap f = (l.filter (fun c => c ≠ name)).flatMap f := by
  induction l with
  | nil => rfl
  | cons a t ih =>
    by_cases ha : a = name
    · subst ha
      simp [List.flatMap_cons, hf, List.filter_cons, ih]
    · simp [List.flatMap_cons, List.filter_cons, ha, ih]

theorem flatMap_congr_mem {f g : String → List String} (l : List String)
    (h : ∀ c ∈ l, f c = g c) : l.flatMap f = l.flatMap g := by
  induction l with
  | nil => rfl
  | cons a t ih =>
    rw [List.flatMap_cons, List.flatMap_cons, h a (List.mem_cons_self a t),
      ih (fun c hc => h c (List.mem_cons_of_mem a hc))]

theorem contrib_filter_eq (reg : Registry) (pname : String)
    (comps : List String) (name : String)
    (field : ComponentSpec → List String) (c : String) (hc : c ≠ name) :
    (TemplateGenerator.mk reg pname
        (comps.filter (fun x => x ≠ name))).contrib field c =
      (TemplateGenerator.mk reg pname comps).contrib field c := by
  unfold TemplateGenerator.contrib TemplateGenerator.component_specs
  by_cases hm : c ∈ comps
  · have : c ∈ comps.filter (fun x => x ≠ name) :=
      List.mem_filter.mpr ⟨hm, by simp [hc]⟩
    simp [hm, this, hc]
  · have : c ∉ comps.filter (fun x => x ≠ name) := fun hmem =>
      hm (List.mem_filter.mp hmem).1
    simp [hm, this]

/-- C10: an unknown component name is inert: the three aggregated lists are
the same as if the name had not been selected at all (it contributes
nothing), the aggregation is total (never raises), and the name still
appears verbatim in the context's selected_components. -/
theorem unknown_component_inert (reg : Registry) (pname : String)
    (comps : List String) (name : String)
    (hunk : alist_get name reg = none) :
    ((TemplateGenerator.mk reg pname comps).get_docker_services =
      (TemplateGenerator.mk reg pname
        (comps.filter (fun c => c ≠ name))).get_docker_services) ∧
    ((TemplateGenerator.mk reg pname comps).get_pyproject_deps =
      (TemplateGenerator.mk reg pname
        (comps.filter (fun c => c ≠ name))).get_pyproject_deps) ∧
    ((TemplateGenerator.mk reg pname comps).get_template_files =
      (TemplateGenerator.mk reg pname
        (comps.filter (fun c => c ≠ name))).get_template_files) ∧
    ((TemplateGenerator.mk reg pname
        comps).get_template_context.selected_components = comps) := by
  have hnil : ∀ field : ComponentSpec → List String,
      (TemplateGenerator.mk reg pname comps).contrib field name = [] := by
    intro field
    unfold TemplateGenerator.contrib TemplateGenerator.component_specs
    by_cases h : name ∈ comps <;> simp [h, hunk]
  have key : ∀ field : ComponentSpec → List String,
      comps.flatMap ((TemplateGenerator.mk reg pname comps).contrib field) =
        (comps.filter (fun c => c ≠ name)).flatMap
          ((TemplateGenerator.mk reg pname
            (comps.filter (fun c => c ≠ name))).contrib field) := by
    intro field
    rw [flatMap_drop_nil (hnil field) comps]
    exact flatMap_congr_mem _ (fun c hc =>
      (contrib_filter_eq reg pname comps name field c
        (by simpa using (List.mem_filter.mp hc).2)).symm)
  exact ⟨congrArg pyDictFromKeys (key _), congrArg pySortedSet (key _),
    congrArg pyDictFromKeys (key _), rfl⟩

/-- C10 witness: the unknown name "ghost" in a concrete selection over the
sample registry. -/
theorem unknown_component_inert_witness :
    alist_get "ghost" sampleRegistry = none ∧
    (((TemplateGenerator.mk sampleRegistry "demo"
        ["redis", "ghost", "worker"]).get_docker_services =
      (TemplateGenerator.mk sampleRegistry "demo"
        (["redis", "ghost", "worker"].filter
          (fun c => c ≠ "ghost"))).get_docker_services) ∧
    ((TemplateGenerator.mk sampleRegistry "demo"
        ["redis", "ghost", "worker"]).get_pyproject_deps =
      (TemplateGenerator.mk sampleRegistry "demo"
        (["redis", "ghost", "worker"].filter
          (fun c => c ≠ "ghost"))).get_pyproject_deps) ∧
    ((TemplateGenerator.mk sampleRegistry "demo"
        ["redis", "ghost", "worker"]).get_template_files =
      (TemplateGenerator.mk sampleRegistry "demo"
        (["redis", "ghost", "worker"].filter
          (fun c => c ≠ "ghost"))).get_template_files) ∧
    ((TemplateGenerator.mk sampleRegistry "demo"
        ["redis", "ghost", "worker"]).get_template_context.selected_components =
      ["redis", "ghost", "worker"])) :=
  ⟨by decide,
   unknown_component_inert sampleRegistry "demo" ["redis", "ghost", "worker"]
     "ghost" (by decide)⟩

/-! ### C7 support: properties of the two deduplication idioms -/

theorem foldl_insert_eq (l : List String) : ∀ acc : List String,
    l.foldl (fun acc a => if a ∈ acc then acc else acc ++ [a]) acc =
      acc ++ dedupFirst (l.filter (fun x => x ∉ acc)) := by
  induction l with
  | nil => intro acc; simp [dedupFirst]
  | cons a t ih =>
    intro acc
    rw [List.foldl_cons, List.filter_cons]
    by_cases ha : a ∈ acc
    · rw [if_pos ha, ih acc, if_neg (by simp [ha])]
    · rw [if_neg ha, ih (acc ++ [a]), if_pos (by simp [ha]), dedupFirst]
      have hfil : t.filter (fun x => x ∉ acc ++ [a]) =
          (t.filter (fun x => x ∉ acc)).filter (fun x => x ≠ a) := by
        rw [List.filter_filter]
        apply List.filter_congr
        intro x hx
        by_cases hxa : x = a <;> by_cases hxacc : x ∈ acc <;>
          simp [hxa, hxacc]
      rw [hfil, List.append_assoc, List.singleton_append]

theorem pyDictFromKeys_eq_dedupFirst (l : List String) :
    pyDictFromKeys l = dedupFirst l := by
  unfold pyDictFromKeys
  rw [foldl_insert_eq l []]
  simp

theorem mem_dedupFirst (x : String) : ∀ l : List String,
    x ∈ dedupFirst l ↔ x ∈ l := by
  intro l
  induction l using dedupFirst.induct with
  | case1 => simp [dedupFirst]
  | case2 a t ih =>
    rw [dedupFirst]
    by_cases hxa : x = a
    · simp [hxa]
    · simp only [List.mem_cons, hxa, false_or]
      rw [ih, List.mem_filter]
      simp [hxa]

theorem nodup_dedupFirst : ∀ l : List String, (dedupFirst l).Nodup := by
  intro l
  induction l using dedupFirst.induct with
  | case1 => simp [dedupFirst]
  | case2 a t ih =>
    rw [dedupFirst, List.nodup_cons]
    refine ⟨fun hmem => ?_, ih⟩
    have := (List.mem_filter.mp ((mem_dedupFirst a _).mp hmem)).2
    simp at this

theorem indexOf_filter_le_iff (p : String → Bool) (l : List String)
    (x y : String) (hx : x ∈ l) (hy : y ∈ l) (hpx : p x = true)
    (hpy : p y = true) :
    ((l.filter p).indexOf x ≤ (l.filter p).indexOf y ↔
      l.indexOf x ≤ l.indexOf y) := by
  induction l with
  | nil => cases hx
  | cons b t ih =>
    rw [List.filter_cons]
    by_cases hpb : p b = true
    · rw [if_pos hpb]
      by_cases hxb : b = x
      · subst hxb
        simp [List.indexOf_cons_self, Nat.zero_le]
      · by_cases hyb : b = y
        · subst hyb
          have hx' : x ∈ t := by
            rcases List.mem_cons.mp hx with h | h
            · exact (hxb h.symm).elim
            · exact h
          rw [List.indexOf_cons_self, List.indexOf_cons_ne _ hxb,
            List.indexOf_cons_self, List.indexOf_cons_ne _ hxb]
          omega
        · have hx' : x ∈ t := by
            rcases List.mem_cons.mp hx with h | h
            · exact (hxb h.symm).elim
            · exact h
          have hy' : y ∈ t := by
            rcases List.mem_cons.mp hy with h | h
            · exact (hyb h.symm).elim
            · exact h
          rw [List.indexOf_cons_ne _ hxb, List.indexOf_cons_ne _ hyb,
            List.indexOf_cons_ne _ hxb, List.indexOf_cons_ne _ hyb,
            Nat.succ_le_succ_iff, Nat.succ_le_succ_iff]
          exact ih hx' hy'
    · rw [if_neg hpb]
      have hbx : b ≠ x := fun he => hpb (he ▸ hpx)
      have hby : b ≠ y := fun he => hpb (he ▸ hpy)
      have hx' : x ∈ t := by
        rcases List.mem_cons.mp hx with h | h
        · exact (hbx h.symm).elim
        · exact h
      have hy' : y ∈ t := by
        rcases List.mem_cons.mp hy with h | h
        · exact (hby h.symm).elim
        · exact h
      rw [List.indexOf_cons_ne _ hbx, List.indexOf_cons_ne _ hby,
        Nat.succ_le_succ_iff]
      exact ih hx' hy'

theorem indexOf_dedupFirst_le_iff (x y : String) : ∀ l : List String,
    x ∈ l → y ∈ l →
    ((dedupFirst l).indexOf x ≤ (dedupFirst l).indexOf y ↔
      l.indexOf x ≤ l.indexOf y) := by
  intro l
  induction l using dedupFirst.induct with
  | case1 => intro hx; cases hx
  | case2 a t ih =>
    intro hx hy
    rw [dedupFirst]
    by_cases hxa : x = a
    · subst hxa
      rw [List.indexOf_cons_self, List.indexOf_cons_self]
      simp [Nat.zero_le]
    · by_cases hya : y = a
      · subst hya
        have hax : y ≠ x := fun he => hxa he.symm
        rw [List.indexOf_cons_self, List.indexOf_cons_self,
          List.indexOf_cons_ne _ hax, List.indexOf_cons_ne _ hax]
        omega
      · have hax : a ≠ x := fun he => hxa he.symm
        have hay : a ≠ y := fun he => hya he.symm
        have hx' : x ∈ t := by
          rcases List.mem_cons.mp hx with h | h
          · exact (hxa h).elim
          · exact h
        have hy' : y ∈ t := by
          rcases List.mem_cons.mp hy with h | h
          · exact (hya h).elim
          · exact h
        have hxf : x ∈ t.filter (fun c => c ≠ a) :=
          List.mem_filter.mpr ⟨hx', by simp [hxa]⟩
        have hyf : y ∈ t.filter (fun c => c ≠ a) :=
          List.mem_filter.mpr ⟨hy', by simp [hya]⟩
        rw [List.indexOf_cons_ne _ hax, List.indexOf_cons_ne _ hay,
          List.indexOf_cons_ne _ hax, List.indexOf_cons_ne _ hay,
          Nat.succ_le_succ_iff, Nat.succ_le_succ_iff]
        rw [ih hxf hyf]
        exact indexOf_filter_le_iff _ t x y hx' hy'
          (by simp [hxa]) (by simp [hya])

theorem pySortedSet_sorted (l : List String) :
    List.Sorted (fun a b => a ≤ b) (pySortedSet l) := by
  have htrans : ∀ a b c : String, (decide (a ≤ b)) = true →
      (decide (b ≤ c)) = true → (decide (a ≤ c)) = true := by
    intro a b c hab hbc
    exact decide_eq_true (le_trans (of_decide_eq_true hab)
      (of_decide_eq_true hbc))
  have htotal : ∀ a b : String,
      (decide (a ≤ b) || decide (b ≤ a)) = true := by
    intro a b
    rcases le_total a b with h | h <;> simp [h]
  exact (List.sorted_mergeSort htrans htotal l.dedup).imp
    (fun h => of_decide_eq_true h)

theorem pySortedSet_nodup (l : List String) : (pySortedSet l).Nodup :=
  (List.mergeSort_perm l.dedup _).symm.nodup (List.nodup_dedup l)

theorem mem_pySortedSet (x : String) (l : List String) :
    x ∈ pySortedSet l ↔ x ∈ l :=
  List.mem_mergeSort.trans List.mem_dedup

theorem pyDictFromKeys_charact (L : List String) :
    (pyDictFromKeys L).Nodup ∧ (∀ x, x ∈ pyDictFromKeys L ↔ x ∈ L) ∧
    (∀ x ∈ pyDictFromKeys L, ∀ y ∈ pyDictFromKeys L,
      ((pyDictFromKeys L).indexOf x ≤ (pyDictFromKeys L).indexOf y ↔
        L.indexOf x ≤ L.indexOf y)) := by
  rw [pyDictFromKeys_eq_dedupFirst]
  refine ⟨nodup_dedupFirst L, fun x => mem_dedupFirst x L, ?_⟩
  intro x hx y hy
  exact indexOf_dedupFirst_le_iff x y L ((mem_dedupFirst x L).mp hx)
    ((mem_dedupFirst y L).mp hy)

/-- C7: docker_services and template_files hold the union of the selected
components' contributions without duplicates, and their relative order
agrees with the order of first occurrence in the concatenated contribution
stream (so each duplicate survives once, at its first contributor's slot);
pyproject_deps is the union of the dependency contributions, sorted
ascending with no duplicates. -/
theorem context_list_aggregation (reg : Registry) (pname : String)
    (comps : List String) :
    ((TemplateGenerator.mk reg pname comps).get_docker_services.Nodup ∧
     (∀ x, x ∈ (TemplateGenerator.mk reg pname comps).get_docker_services ↔
       ∃ n ∈ comps,
         x ∈ (TemplateGenerator.mk reg pname comps).contrib
           ComponentSpec.docker_services n) ∧
     (∀ x ∈ (TemplateGenerator.mk reg pname comps).get_docker_services,
      ∀ y ∈ (TemplateGenerator.mk reg pname comps).get_docker_services,
       ((TemplateGenerator.mk reg pname comps).get_docker_services.indexOf x ≤
          (TemplateGenerator.mk reg pname comps).get_docker_services.indexOf y ↔
        (comps.flatMap ((TemplateGenerator.mk reg pname comps).contrib
          ComponentSpec.docker_services)).indexOf x ≤
          (comps.flatMap ((TemplateGenerator.mk reg pname comps).contrib
            ComponentSpec.docker_services)).indexOf y))) ∧
    ((TemplateGenerator.mk reg pname comps).get_template_files.Nodup ∧
     (∀ x, x ∈ (TemplateGenerator.mk reg pname comps).get_template_files ↔
       ∃ n ∈ comps,
         x ∈ (TemplateGenerator.mk reg pname comps).contrib
           ComponentSpec.template_files n) ∧
     (∀ x ∈ (TemplateGenerator.mk reg pname comps).get_template_files,
      ∀ y ∈ (TemplateGenerator.mk reg pname comps).get_template_files,
       ((TemplateGenerator.mk reg pname comps).get_template_files.indexOf x ≤
          (TemplateGenerator.mk reg pname comps).get_template_files.indexOf y ↔
        (comps.flatMap ((TemplateGenerator.mk reg pname comps).contrib
          ComponentSpec.template_files)).indexOf x ≤
          (comps.flatMap ((TemplateGenerator.mk reg pname comps).contrib
            ComponentSpec.template_files)).indexOf y))) ∧
    ((TemplateGenerator.mk reg pname comps).get_pyproject_deps.Nodup ∧
     List.Sorted (fun a b => a ≤ b)
       (TemplateGenerator.mk reg pname comps).get_pyproject_deps ∧
     (∀ x, x ∈ (TemplateGenerator.mk reg pname comps).get_pyproject_deps ↔
       ∃ n ∈ comps,
         x ∈ (TemplateGenerator.mk reg pname comps).contrib
           ComponentSpec.pyproject_deps n)) := by
  refine ⟨⟨?_, ?_, ?_⟩, ⟨?_, ?_, ?_⟩, ?_, ?_, ?_⟩
  · exact (pyDictFromKeys_charact _).1
  · intro x
    exact ((pyDictFromKeys_charact _).2.1 x).trans List.mem_flatMap
  · exact (pyDictFromKeys_charact _).2.2
  · exact (pyDictFromKeys_charact _).1
  · intro x
    exact ((pyDictFromKeys_charact _).2.1 x).trans List.mem_flatMap
  · exact (pyDictFromKeys_charact _).2.2
  · exact pySortedSet_nodup _
  · exact pySortedSet_sorted _
  · intro x
    exact (mem_pySortedSet x _).trans List.mem_flatMap

/-- C7 witness: the aggregation properties at the sample registry with the
selection [worker, redis], whose docker-service streams overlap. -/
theorem context_list_aggregation_witness :
    ((TemplateGenerator.mk sampleRegistry "demo"
        ["worker", "redis"]).get_docker_services.Nodup ∧
     (∀ x, x ∈ (TemplateGenerator.mk sampleRegistry "demo"
          ["worker", "redis"]).get_docker_services ↔
       ∃ n ∈ ["worker", "redis"],
         x ∈ (TemplateGenerator.mk sampleRegistry "demo"
           ["worker", "redis"]).contrib ComponentSpec.docker_services n) ∧
     (∀ x ∈ (TemplateGenerator.mk sampleRegistry "demo"
        ["worker", "redis"]).get_docker_services,
      ∀ y ∈ (TemplateGenerator.mk sampleRegistry "demo"
        ["worker", "redis"]).get_docker_services,
       ((TemplateGenerator.mk sampleRegistry "demo"
          ["worker", "redis"]).get_docker_services.indexOf x ≤
          (TemplateGenerator.mk sampleRegistry "demo"
            ["worker", "redis"]).get_docker_services.indexOf y ↔
        (["worker", "redis"].flatMap ((TemplateGenerator.mk sampleRegistry
          "demo" ["worker", "redis"]).contrib
          ComponentSpec.docker_services)).indexOf x ≤
          (["worker", "redis"].flatMap ((TemplateGenerator.mk sampleRegistry
            "demo" ["worker", "redis"]).contrib
            ComponentSpec.docker_services)).indexOf y))) ∧
    ((TemplateGenerator.mk sampleRegistry "demo"
        ["worker", "redis"]).get_template_files.Nodup ∧
     (∀ x, x ∈ (TemplateGenerator.mk sampleRegistry "demo"
          ["worker", "redis"]).get_template_files ↔
       ∃ n ∈ ["worker", "redis"],
         x ∈ (TemplateGenerator.mk sampleRegistry "demo"
           ["worker", "redis"]).contrib ComponentSpec.template_files n) ∧
     (∀ x ∈ (TemplateGenerator.mk sampleRegistry "demo"
        ["worker", "redis"]).get_template_files,
      ∀ y ∈ (TemplateGenerator.mk sampleRegistry "demo"
        ["worker", "redis"]).get_template_files,
       ((TemplateGenerator.mk sampleRegistry "demo"
          ["worker", "redis"]).get_template_files.indexOf x ≤
          (TemplateGenerator.mk sampleRegistry "demo"
            ["worker", "redis"]).get_template_files.indexOf y ↔
        (["worker", "redis"].flatMap ((TemplateGenerator.mk sampleRegistry
          "demo" ["worker", "redis"]).contrib
          ComponentSpec.template_files)).indexOf x ≤
          (["worker", "redis"].flatMap ((TemplateGenerator.mk sampleRegistry
            "demo" ["worker", "redis"]).contrib
            ComponentSpec.template_files)).indexOf y))) ∧
    ((TemplateGenerator.mk sampleRegistry "demo"
        ["worker", "redis"]).get_pyproject_deps.Nodup ∧
     List.Sorted (fun a b => a ≤ b)
       (TemplateGenerator.mk sampleRegistry "demo"
         ["worker", "redis"]).get_pyproject_deps ∧
     (∀ x, x ∈ (TemplateGenerator.mk sampleRegistry "demo"
          ["worker", "redis"]).get_pyproject_deps ↔
       ∃ n ∈ ["worker", "redis"],
         x ∈ (TemplateGenerator.mk sampleRegistry "demo"
           ["worker", "redis"]).contrib ComponentSpec.pyproject_deps n)) :=
  context_list_aggregation sampleRegistry "demo" ["worker", "redis"]

/-- C8 witness: the flag behaviour at the concrete selection
[redis, scheduler]. -/
theorem template_context_flags_witness :
    (((TemplateGenerator.mk sampleRegistry "demo"
        ["redis", "scheduler"]).get_template_context.include_redis = "yes") ↔
      "redis" ∈ ["redis", "scheduler"]) ∧
    (((TemplateGenerator.mk sampleRegistry "demo"
        ["redis", "scheduler"]).get_template_context.include_redis = "no") ↔
      "redis" ∉ ["redis", "scheduler"]) ∧
    (((TemplateGenerator.mk sampleRegistry "demo"
        ["redis", "scheduler"]).get_template_context.include_worker = "yes") ↔
      "worker" ∈ ["redis", "scheduler"]) ∧
    (((TemplateGenerator.mk sampleRegistry "demo"
        ["redis", "scheduler"]).get_template_context.include_worker = "no") ↔
      "worker" ∉ ["redis", "scheduler"]) ∧
    (((TemplateGenerator.mk sampleRegistry "demo"
        ["redis", "scheduler"]).get_template_context.include_scheduler =
        "yes") ↔ "scheduler" ∈ ["redis", "scheduler"]) ∧
    (((TemplateGenerator.mk sampleRegistry "demo"
        ["redis", "scheduler"]).get_template_context.include_scheduler =
        "no") ↔ "scheduler" ∉ ["redis", "scheduler"]) ∧
    (((TemplateGenerator.mk sampleRegistry "demo"
        ["redis", "scheduler"]).get_template_context.has_background_infrastructure
        = true) ↔
      ("worker" ∈ ["redis", "scheduler"] ∨ "scheduler" ∈ ["redis", "scheduler"])) :=
  template_context_flags sampleRegistry "demo" ["redis", "scheduler"]

/-- C1 (amended) witness: the one-level characterisation at the concrete
deep-tree poll. -/
theorem overall_health_one_level_witness :
    ((pollSnapshot cexChecks [] 1 0 cexFresh []).overall_healthy = true ↔
      ∀ p ∈ (pollSnapshot cexChecks [] 1 0 cexFresh []).rootSubs,
        p.2.healthy = true ∧
        ∀ q ∈ p.2.sub_components, q.2.healthy = true) :=
  overall_health_one_level cexChecks [] 1 0 cexFresh []

/-! ### C4 support: the resolver's fixpoint -/

theorem subset_resolveStep (registry : Registry) (S : Finset String) :
    S ⊆ resolveStep registry S :=
  Finset.subset_union_left

theorem subset_resolveAux (registry : Registry) :
    ∀ (n : ℕ) (S : Finset String), S ⊆ resolveAux registry n S := by
  intro n
  induction n with
  | zero => intro S; exact Finset.Subset.refl S
  | succ n ih =>
    intro S
    rw [resolveAux]
    by_cases h : resolveStep registry S = S
    · rw [if_pos h]
    · rw [if_neg h]
      exact (subset_resolveStep registry S).trans (ih (resolveStep registry S))

theorem requiresOfMembers_subset (registry : Registry) (S : Finset String) :
    requiresOfMembers registry S ⊆ allRequires registry := by
  induction registry with
  | nil => exact Finset.Subset.refl _
  | cons c rest ih =>
    show (if c.1 ∈ S then c.2.requires.toFinset ∪ requiresOfMembers rest S
        else requiresOfMembers rest S) ⊆
      c.2.requires.toFinset ∪ allRequires rest
    by_cases h : c.1 ∈ S
    · rw [if_pos h]
      exact Finset.union_subset_union (Finset.Subset.refl _) ih
    · rw [if_neg h]
      exact ih.trans Finset.subset_union_right

theorem resolveStep_subset (registry : Registry) {S U : Finset String}
    (hS : S ⊆ U) (hA : allRequires registry ⊆ U) :
    resolveStep registry S ⊆ U :=
  Finset.union_subset hS ((requiresOfMembers_subset registry S).trans hA)

theorem mem_requiresOfMembers (registry : Registry) (S : Finset String) :
    ∀ c ∈ registry, c.1 ∈ S → ∀ r ∈ c.2.requires,
      r ∈ requiresOfMembers registry S := by
  induction registry with
  | nil => intro c hc; cases hc
  | cons a rest ih =>
    intro c hc hcs r hr
    show r ∈ (if a.1 ∈ S then a.2.requires.toFinset ∪ requiresOfMembers rest S
        else requiresOfMembers rest S)
    rcases List.mem_cons.mp hc with h | h
    · subst h
      rw [if_pos hcs]
      exact Finset.mem_union_left _ (List.mem_toFinset.mpr hr)
    · have hrec := ih c h hcs r hr
      by_cases ha : a.1 ∈ S
      · rw [if_pos ha]; exact Finset.mem_union_right _ hrec
      · rw [if_neg ha]; exact hrec

theorem resolveAux_reaches_fixpoint (registry : Registry) (U : Finset String)
    (hA : allRequires registry ⊆ U) :
    ∀ (n : ℕ) (S : Finset String), S ⊆ U → (U \ S).card ≤ n →
      resolveStep registry (resolveAux registry n S) =
        resolveAux registry n S := by
  intro n
  induction n with
  | zero =>
    intro S hS hc
    have hempty : U \ S = ∅ := Finset.card_eq_zero.mp (Nat.le_zero.mp hc)
    have hUS : U ⊆ S := by
      intro x hx
      by_contra hxs
      have : x ∈ U \ S := Finset.mem_sdiff.mpr ⟨hx, hxs⟩
      rw [hempty] at this
      exact absurd this (Finset.not_mem_empty x)
    show resolveStep registry S = S
    exact Finset.Subset.antisymm
      ((resolveStep_subset registry hS hA).trans hUS)
      (subset_resolveStep registry S)
  | succ n ih =>
    intro S hS hc
    rw [resolveAux]
    by_cases h : resolveStep registry S = S
    · rw [if_pos h]; exact h
    · rw [if_neg h]
      apply ih (resolveStep registry S) (resolveStep_subset registry hS hA)
      have hss : S ⊂ resolveStep registry S :=
        Finset.ssubset_iff_subset_ne.mpr
          ⟨subset_resolveStep registry S, fun he => h he.symm⟩
      obtain ⟨x, hxT, hxS⟩ := Finset.exists_of_ssubset hss
      have hxU : x ∈ U := resolveStep_subset registry hS hA hxT
      have h1 : U \ resolveStep registry S ⊆ (U \ S).erase x := by
        intro z hz
        rcases Finset.mem_sdiff.mp hz with ⟨hzU, hzT⟩
        refine Finset.mem_erase.mpr ⟨fun he => hzT (he ▸ hxT), ?_⟩
        exact Finset.mem_sdiff.mpr
          ⟨hzU, fun hzS => hzT (subset_resolveStep registry S hzS)⟩
      have h2 : ((U \ S).erase x).card < (U \ S).card :=
        Finset.card_erase_lt_of_mem (Finset.mem_sdiff.mpr ⟨hxU, hxS⟩)
      have h3 := Finset.card_le_card h1
      omega

theorem closed_of_fixpoint (registry : Registry) (S : Finset String)
    (h : resolveStep registry S = S) :
    ∀ c ∈ registry, c.1 ∈ S → ∀ r ∈ c.2.requires, r ∈ S := by
  intro c hc hcs r hr
  have hmem : r ∈ resolveStep registry S :=
    Finset.mem_union_right _ (mem_requiresOfMembers registry S c hc hcs r hr)
  rw [h] at hmem
  exact hmem

/-- C4: on every component selection accepted by validate_components, the
resolver returns a superset of the requested names that is closed under
requires: every registry component inside the resolved set has all of its
required names inside the set as well. -/
theorem resolve_superset_closed (registry : Registry) (names : List String)
    (hvalid : validate_components registry names = []) :
    names.toFinset ⊆ resolve_dependencies registry names ∧
    (∀ c ∈ registry, c.1 ∈ resolve_dependencies registry names →
      ∀ r ∈ c.2.requires, r ∈ resolve_dependencies registry names) := by
  constructor
  · exact subset_resolveAux registry _ names.toFinset
  · apply closed_of_fixpoint
    apply resolveAux_reaches_fixpoint registry
      (names.toFinset ∪ allRequires registry) Finset.subset_union_right
    · exact Finset.subset_union_left
    · have h1 : ((names.toFinset ∪ allRequires registry) \ names.toFinset).card ≤
          (names.toFinset ∪ allRequires registry).card :=
        Finset.card_le_card (Finset.sdiff_subset)
      omega

/-- C4 witness: the sample registry with the single request [worker]; the
request validates and the resolved set is a requires-closed superset. -/
theorem resolve_superset_closed_witness :
    validate_components sampleRegistry ["worker"] = [] ∧
    ((["worker"] : List String).toFinset ⊆
        resolve_dependencies sampleRegistry ["worker"] ∧
      (∀ c ∈ sampleRegistry,
        c.1 ∈ resolve_dependencies sampleRegistry ["worker"] →
        ∀ r ∈ c.2.requires,
          r ∈ resolve_dependencies sampleRegistry ["worker"])) :=
  ⟨by decide, resolve_superset_closed sampleRegistry ["worker"] (by decide)⟩

end Aegis
